import Mathlib

/-!
Shallow embedding of the aggregation pipeline of `src/app.py`
(Indian Super League dashboard).

The table is a `List MatchRow`; each pandas expression of the route
handler `index` is translated into a Lean function on that list.
Pandas floats appearing in displayed means and win rates are modelled
as exact rationals (`ℚ`).
-/

/-- A row of the match table (the fields of `data/isl_matches.csv` used by
the aggregation code).  `winner` is nullable (`pd.NaT`/NaN is `none`);
pandas `==` against NaN is `False`, which `winnerMatches` reproduces. -/
structure MatchRow where
  Home : String
  Away : String
  winner : Option String
  total_goals : Nat
  Day : String
  home_team_score : Nat
  away_team_score : Nat
deriving DecidableEq, Repr

/-- Pandas elementwise equality of the nullable `winner` column against a
team-name column: NaN compares unequal to everything. -/
def winnerMatches (w : Option String) (t : String) : Bool :=
  match w with
  | none => false
  | some s => s == t

/-- `home_wins = len(df[df['winner'] == df['Home']])`  (app.py line 27). -/
def home_wins (df : List MatchRow) : Nat :=
  (df.filter (fun r => winnerMatches r.winner r.Home)).length

/-- `away_wins = len(df[df['winner'] == df['Away']])`  (app.py line 28). -/
def away_wins (df : List MatchRow) : Nat :=
  (df.filter (fun r => winnerMatches r.winner r.Away)).length

/-- `draws = len(df) - home_wins - away_wins`  (app.py line 29).
Python integer subtraction may go negative, hence `Int`. -/
def draws (df : List MatchRow) : Int :=
  (df.length : Int) - (home_wins df : Int) - (away_wins df : Int)

/-- `goal_bins = [0, 1, 2, 3, 4, 10]`  (app.py line 39). -/
def goal_bins : List Int := [0, 1, 2, 3, 4, 10]

/-- `goal_labels = ['0-1', '2', '3', '4', '5+']`  (app.py line 40). -/
def goal_labels : List String := ["0-1", "2", "3", "4", "5+"]

/-- Interval search of `pd.cut` with default `right=True`: walk the
consecutive edge pairs `(lo, hi]` and return the matching label; a value
outside every bin gets NaN (`none`). -/
def pdCutGo (lo : Int) (edges : List Int) (labels : List String) (v : Int) :
    Option String :=
  match edges, labels with
  | hi :: es, l :: ls =>
      if lo < v ∧ v ≤ hi then some l else pdCutGo hi es ls v
  | _, _ => none

/-- `pd.cut(x, bins, labels)` for a single value (right-closed, left-open). -/
def pdCut (bins : List Int) (labels : List String) (v : Int) : Option String :=
  match bins with
  | [] => none
  | lo :: es => pdCutGo lo es labels v

/-- The derived `goal_range` column:
`pd.cut(df['total_goals'], bins=goal_bins, labels=goal_labels)`
(app.py line 41), evaluated on one cell. -/
def goal_range (v : Nat) : Option String :=
  pdCut goal_bins goal_labels (v : Int)

/-- Adding the `goal_range` column keeps every row: `pd.cut` assigns a
(possibly NaN) category per row and drops nothing. -/
def withGoalRange (df : List MatchRow) : List (MatchRow × Option String) :=
  df.map (fun r => (r, goal_range r.total_goals))

/-- `df['goal_range'].value_counts().sort_index()`  (app.py line 42).
On a categorical column, `value_counts` reports a count for every declared
category (zero included, NaN rows dropped) and `sort_index` orders the
result by the declared category order; the composite is one
`(label, frequency)` pair per label, in declaration order. -/
def goal_dist (df : List MatchRow) : List (String × Nat) :=
  goal_labels.map (fun l =>
    (l, (df.filter (fun r => goal_range r.total_goals == some l)).length))

/-- `day_order = ['Mon', 'Tue', 'Wed', 'Thu', 'Fri', 'Sat', 'Sun']`
(app.py line 52). -/
def day_order : List String := ["Mon", "Tue", "Wed", "Thu", "Fri", "Sat", "Sun"]

/-- Lexicographic string order on the underlying character lists (Python
compares `str` values by code points; Lean's `String` order is the same
relation, but this form is kernel-computable). -/
def strLe (a b : String) : Prop := a.data ≤ b.data

instance : DecidableRel strLe := fun a b => inferInstanceAs (Decidable (a.data ≤ b.data))

/-- The distinct group keys of `df.groupby('Day')` (app.py line 53):
pandas `groupby` with its default `sort=True` yields the distinct keys in
ascending order. -/
def groupKeys (df : List MatchRow) : List String :=
  List.insertionSort strLe ((df.map MatchRow.Day).dedup)

/-- One output row of `df.groupby('Day').agg({'total_goals': 'mean',
'Date': 'count'})`: the key, the mean of `total_goals` and the row count
of the group. -/
structure DayStat where
  Day : String
  total_goals : ℚ
  DateCount : Nat
deriving DecidableEq, Repr

/-- Arithmetic mean, as an exact rational (floats idealized). -/
def meanQ (xs : List Nat) : ℚ := (xs.sum : ℚ) / (xs.length : ℚ)

/-- `day_stats = df.groupby('Day').agg({...}).reset_index()`
(app.py lines 53-56), before the categorical re-sort: one row per distinct
`Day` key, keys ascending (pandas groupby default). -/
def day_stats_unsorted (df : List MatchRow) : List DayStat :=
  (groupKeys df).map (fun d =>
    let g := df.filter (fun r => r.Day == d)
    { Day := d, total_goals := meanQ (g.map MatchRow.total_goals),
      DateCount := g.length })

/-- Position of a day code under
`pd.Categorical(..., categories=day_order, ordered=True)`: the canonical
index, with a value outside the categories becoming NaN, which
`sort_values` places last (`indexOf` returns the list length then). -/
def dayPos (d : String) : Nat := day_order.indexOf d

/-- `day_stats.sort_values('Day')` after the categorical cast
(app.py lines 57-58): rows ordered by canonical day position. -/
def day_stats (df : List MatchRow) : List DayStat :=
  List.insertionSort (fun a b => dayPos a.Day ≤ dayPos b.Day)
    (day_stats_unsorted df)

/-- `teams = sorted(set(df['Home'].unique()) | set(df['Away'].unique()))`
(app.py line 119): the distinct values of the two columns, ascending. -/
def teams (df : List MatchRow) : List String :=
  List.insertionSort strLe ((df.map MatchRow.Home ++ df.map MatchRow.Away).dedup)

/-- `total_matches = len(home_matches) + len(away_matches)`
(app.py lines 123-126). -/
def total_matches (df : List MatchRow) (team : String) : Nat :=
  (df.filter (fun r => r.Home == team)).length +
    (df.filter (fun r => r.Away == team)).length

/-- `wins = len(df[df['winner'] == team])`  (app.py line 127). -/
def wins (df : List MatchRow) (team : String) : Nat :=
  (df.filter (fun r => winnerMatches r.winner team)).length

/-- `round((wins/total_matches)*100, 1)` expressed in tenths of a percent:
Python rounds half to even; the float `wins/total*100` is idealized as the
exact fraction `w*1000/m` tenths, rounded to an integer. -/
def rateTenths (w m : Nat) : Nat :=
  let q := w * 1000 / m
  let r := w * 1000 % m
  if 2 * r < m then q
  else if m < 2 * r then q + 1
  else if q % 2 = 0 then q else q + 1

/-- `'Win Rate': round((wins/total_matches)*100, 1) if total_matches > 0
else 0`  (app.py line 136), in tenths of a percent. -/
def win_rate (df : List MatchRow) (team : String) : Nat :=
  if 0 < total_matches df team then rateTenths (wins df team) (total_matches df team)
  else 0

/-- One record of the `team_stats` list (app.py lines 131-137); `WinRate`
holds tenths of a percent (the Python float is `WinRate / 10`). -/
structure TeamStat where
  Team : String
  Matches : Nat
  Wins : Nat
  Goals : Nat
  WinRate : Nat
deriving DecidableEq, Repr

/-- The `team_stats` list built by the `for team in teams` loop
(app.py lines 120-137). -/
def team_stats (df : List MatchRow) : List TeamStat :=
  (teams df).map (fun team =>
    let home_matches := df.filter (fun r => r.Home == team)
    let away_matches := df.filter (fun r => r.Away == team)
    { Team := team,
      Matches := home_matches.length + away_matches.length,
      Wins := wins df team,
      Goals := (home_matches.map MatchRow.home_team_score).sum +
        (away_matches.map MatchRow.away_team_score).sum,
      WinRate := win_rate df team })

/-- `team_df = pd.DataFrame(team_stats).sort_values('Win Rate',
ascending=False).head(10)`  (app.py line 139).  A DataFrame built from an
empty record list has no columns at all, so `sort_values('Win Rate')`
raises `KeyError` there; otherwise the rows are sorted descending by
`Win Rate` and the first 10 kept.  (pandas `sort_values` uses an unstable
quicksort by default; rows with equal `Win Rate` are modelled here in
their pre-sort order, which any stable run also produces.) -/
def team_df (df : List MatchRow) : Except String (List TeamStat) :=
  let stats := team_stats df
  if stats.isEmpty then Except.error "KeyError: Win Rate"
  else Except.ok ((List.insertionSort (fun a b => b.WinRate ≤ a.WinRate) stats).take 10)

/-- A data-anomaly row: identical `Home` and `Away`, both equal to the
winner. -/
def anomalousRow : MatchRow :=
  { Home := "A", Away := "A", winner := some "A", total_goals := 2,
    Day := "Sat", home_team_score := 1, away_team_score := 1 }

/-- The spec's three-row example table. -/
def exTable3 : List MatchRow :=
  [{ Home := "A", Away := "B", winner := some "A", total_goals := 2,
     Day := "Sat", home_team_score := 2, away_team_score := 0 },
   { Home := "A", Away := "B", winner := some "Draw", total_goals := 2,
     Day := "Sun", home_team_score := 1, away_team_score := 1 },
   { Home := "B", Away := "A", winner := none, total_goals := 0,
     Day := "Mon", home_team_score := 0, away_team_score := 0 }]

/-- The draw classifier in the words of the spec (refinement side, not a
translation of code): a winner that is null/absent, or equal to "draw"
case-insensitively. -/
def specDrawWinner (w : Option String) : Bool :=
  match w with
  | none => true
  | some s => s.data.map Char.toLower == "draw".data

/-- A row of a degenerate table whose home team is literally named
"draw". -/
def drawNamedRow : MatchRow :=
  { Home := "draw", Away := "X", winner := some "draw", total_goals := 2,
    Day := "Sat", home_team_score := 2, away_team_score := 0 }

/-- A four-row table on which ranking by win rate and ranking by win
count disagree: A has 1 win in 1 match (rate 100.0), B has 2 wins in 4
matches (rate 50.0), C has 1 win in 3 matches (rate 33.3). -/
def leaderboardTable : List MatchRow :=
  [{ Home := "B", Away := "C", winner := some "B", total_goals := 3,
     Day := "Sat", home_team_score := 2, away_team_score := 1 },
   { Home := "B", Away := "C", winner := some "B", total_goals := 3,
     Day := "Sun", home_team_score := 2, away_team_score := 1 },
   { Home := "B", Away := "C", winner := some "C", total_goals := 1,
     Day := "Sat", home_team_score := 0, away_team_score := 1 },
   { Home := "A", Away := "B", winner := some "A", total_goals := 1,
     Day := "Sun", home_team_score := 1, away_team_score := 0 }]

/-- A table whose matches fall on Wed, Fri and Mon only. -/
def mwfTable : List MatchRow :=
  [{ Home := "A", Away := "B", winner := some "A", total_goals := 3,
     Day := "Wed", home_team_score := 2, away_team_score := 1 },
   { Home := "B", Away := "A", winner := none, total_goals := 1,
     Day := "Fri", home_team_score := 0, away_team_score := 1 },
   { Home := "A", Away := "B", winner := some "B", total_goals := 2,
     Day := "Mon", home_team_score := 0, away_team_score := 2 }]

/-- Closed form of `goal_range`: the nested interval tests of `pd.cut`
over the concrete edges. -/
lemma goal_range_eq (v : Nat) :
    goal_range v =
      if v = 0 then none
      else if v ≤ 1 then some "0-1"
      else if v ≤ 2 then some "2"
      else if v ≤ 3 then some "3"
      else if v ≤ 4 then some "4"
      else if v ≤ 10 then some "5+"
      else none := by
  simp only [goal_range, pdCut, pdCutGo, goal_bins, goal_labels]
  split_ifs <;> first | rfl | omega

/-- In a table where no row's winner matches both sides, the home/away
filters are disjoint and together with the complement partition the
rows. -/
lemma winner_partition (l : List MatchRow)
    (h : ∀ r ∈ l, winnerMatches r.winner r.Home = true → winnerMatches r.winner r.Away = false) :
    home_wins l + away_wins l =
      (l.filter (fun r => winnerMatches r.winner r.Home || winnerMatches r.winner r.Away)).length ∧
    home_wins l + away_wins l +
      (l.filter (fun r => !(winnerMatches r.winner r.Home) && !(winnerMatches r.winner r.Away))).length
      = l.length := by
  induction l with
  | nil => exact ⟨rfl, rfl⟩
  | cons a t ih =>
    have ha := h a (List.mem_cons_self a t)
    obtain ⟨ih1, ih2⟩ := ih (fun r hr => h r (List.mem_cons_of_mem a hr))
    cases hH : winnerMatches a.winner a.Home <;> cases hA : winnerMatches a.winner a.Away <;>
      simp only [home_wins, away_wins, List.filter_cons, hH, hA] at ih1 ih2 ⊢ <;>
      simp_all <;> omega

/-- Mapping a projection over a record-building map is the identity. -/
lemma map_proj_of_section {α β : Type} (f : α → β) (g : β → α)
    (hf : ∀ a, g (f a) = a) (l : List α) : (l.map f).map g = l := by
  induction l with
  | nil => rfl
  | cons a t ih => simp [hf, ih]

/-- A list that is a permutation of `keys` and sorted by position in a
canonical list `canon` (strictly sorted by positions on `canon` itself)
is exactly `canon` filtered to the members of `keys`. -/
lemma sorted_canonical_eq (canon keys out : List String)
    (hcs : canon.Pairwise (fun a b => canon.indexOf a < canon.indexOf b))
    (hknd : keys.Nodup) (hsub : ∀ x ∈ keys, x ∈ canon)
    (hperm : List.Perm out keys)
    (hsorted : out.Pairwise (fun a b => canon.indexOf a ≤ canon.indexOf b)) :
    out = canon.filter (fun d => decide (d ∈ keys)) := by
  haveI : IsAntisymm String (fun a b => canon.indexOf a < canon.indexOf b) :=
    ⟨fun a b h1 h2 => absurd (Nat.lt_trans h1 h2) (Nat.lt_irrefl _)⟩
  have hond : out.Nodup := hperm.nodup_iff.mpr hknd
  have homem : ∀ x, x ∈ out ↔ x ∈ keys := fun x => hperm.mem_iff
  have hostrict : out.Pairwise (fun a b => canon.indexOf a < canon.indexOf b) := by
    have hand := hsorted.and hond
    refine List.Pairwise.imp_of_mem ?_ hand
    intro a b ha hb hab
    refine Nat.lt_of_le_of_ne hab.1 ?_
    intro heq
    exact hab.2 ((List.indexOf_inj (hsub a ((homem a).mp ha))
      (hsub b ((homem b).mp hb))).mp heq)
  have hfs : (canon.filter (fun d => decide (d ∈ keys))).Pairwise
      (fun a b => canon.indexOf a < canon.indexOf b) :=
    hcs.sublist (List.filter_sublist canon)
  have hfnd : (canon.filter (fun d => decide (d ∈ keys))).Nodup :=
    hfs.imp (fun hlt heq => absurd (heq ▸ hlt) (Nat.lt_irrefl _))
  have hfmem : ∀ x, x ∈ canon.filter (fun d => decide (d ∈ keys)) ↔ x ∈ keys := by
    intro x
    rw [List.mem_filter]
    constructor
    · intro hx
      exact of_decide_eq_true hx.2
    · intro hx
      exact ⟨hsub x hx, decide_eq_true hx⟩
  have hperm2 : List.Perm out (canon.filter (fun d => decide (d ∈ keys))) := by
    refine hperm.trans ?_
    refine (List.perm_ext_iff_of_nodup hknd hfnd).mpr ?_
    intro a
    rw [hfmem a]
  exact List.eq_of_perm_of_sorted hperm2 hostrict hfs

/-- C1 counterexample: on a single anomalous row whose `Home` and `Away`
are both "A" and whose winner is "A", the code counts the row both as a
home win and as an away win (the two pandas filters are independent, there
is no evaluation-order exclusion), and `draws` becomes `-1`; the claimed
home-only attribution is false. -/
theorem C1_counterexample :
    home_wins [anomalousRow] = 1 ∧ away_wins [anomalousRow] = 1 ∧
      draws [anomalousRow] = -1 := by decide

/-- C1 amended: a row whose winner matches both its `Home` and its `Away`
value is double-counted (see the counterexample).  For every table in
which no row's winner matches both sides, the three counts do partition
the rows: `homeWins + awayWins` counts exactly the rows whose winner
matches one of the two sides, and `draws` equals the number of rows whose
winner matches neither side. -/
theorem C1_amended_row_attribution (df : List MatchRow)
    (h : ∀ r ∈ df, winnerMatches r.winner r.Home = true →
      winnerMatches r.winner r.Away = false) :
    home_wins df + away_wins df =
      (df.filter (fun r => winnerMatches r.winner r.Home || winnerMatches r.winner r.Away)).length ∧
    draws df =
      ((df.filter (fun r => !(winnerMatches r.winner r.Home) &&
        !(winnerMatches r.winner r.Away))).length : Int) := by
  obtain ⟨h1, h2⟩ := winner_partition df h
  exact ⟨h1, by unfold draws; omega⟩

/-- C1 witness: the amended partition property evaluated on the concrete
three-row example table. -/
theorem C1_amended_row_attribution_witness :
    home_wins exTable3 + away_wins exTable3 =
      (exTable3.filter (fun r => winnerMatches r.winner r.Home || winnerMatches r.winner r.Away)).length ∧
    draws exTable3 =
      ((exTable3.filter (fun r => !(winnerMatches r.winner r.Home) &&
        !(winnerMatches r.winner r.Away))).length : Int) :=
  C1_amended_row_attribution exTable3 (by decide)

/-- C2: for every table, `homeWins + awayWins + draws` equals the row
count exactly (`draws` is computed as the remainder `len(df) - home_wins
- away_wins`). -/
theorem C2_distribution_sums_to_rowcount (df : List MatchRow) :
    (home_wins df : Int) + (away_wins df : Int) + draws df = (df.length : Int) := by
  unfold draws; ring

/-- C3: on a zero-row table the winner distribution, the goal binning,
the day-of-week grouped means and the per-team statistics list all return
their neutral/empty results, but the per-team ranking does NOT degrade
gracefully: `pd.DataFrame([])` has no columns, so
`sort_values('Win Rate')` raises `KeyError` (app.py line 139), refuting
the claim that no aggregation raises on empty input. -/
theorem C3_empty_table_behavior :
    home_wins [] = 0 ∧ away_wins [] = 0 ∧ draws [] = 0 ∧
    goal_dist [] = [("0-1", 0), ("2", 0), ("3", 0), ("4", 0), ("5+", 0)] ∧
    day_stats [] = [] ∧ team_stats [] = [] ∧
    team_df [] = Except.error "KeyError: Win Rate" :=
  ⟨rfl, rfl, rfl, rfl, rfl, rfl, rfl⟩

/-- C4 counterexample: on `leaderboardTable` the ranking produced by the
code is A (1 win), B (2 wins), C (1 win) — ordered by win rate — which is
not ordered descending by win count, refuting the claimed
leaderboard-by-wins behaviour. -/
theorem C4_counterexample :
    (team_df leaderboardTable).map (fun l => l.map (fun s => (s.Team, s.Wins))) =
      Except.ok [("A", 1), ("B", 2), ("C", 1)] ∧
    ¬ List.Pairwise (fun a b : String × Nat => b.2 ≤ a.2) [("A", 1), ("B", 2), ("C", 1)] :=
  ⟨rfl, fun h => absurd ((List.pairwise_cons.mp h).1 ("B", 2) (by simp)) (by decide)⟩

/-- C4 amended: the per-team ranking sorts descending by win rate
(percent of matches won, rounded to one decimal), not by raw win count;
teams are enumerated alphabetically before the sort, the cut-off is a
fixed 10 (no `topN` parameter), and the output length is
`min 10 (number of teams)`. -/
theorem C4_amended_ranking (df : List MatchRow) (l : List TeamStat)
    (hok : team_df df = Except.ok l) :
    List.Sorted (fun a b => b.WinRate ≤ a.WinRate) l ∧
    l.length = min 10 (teams df).length := by
  unfold team_df at hok
  by_cases he : (team_stats df).isEmpty
  · simp [he] at hok
  · rw [Bool.not_eq_true] at he
    simp only [he, Bool.false_eq_true, if_false, Except.ok.injEq] at hok
    subst hok
    constructor
    · haveI h1 : IsTotal TeamStat (fun a b => b.WinRate ≤ a.WinRate) :=
        ⟨fun a b => Nat.le_total b.WinRate a.WinRate⟩
      haveI h2 : IsTrans TeamStat (fun a b => b.WinRate ≤ a.WinRate) :=
        ⟨fun a b c hab hbc => Nat.le_trans hbc hab⟩
      exact (List.sorted_insertionSort _ _).sublist (List.take_sublist _ _)
    · rw [List.length_take, List.length_insertionSort, team_stats, List.length_map]

/-- C4 witness: the amended ranking property evaluated on
`leaderboardTable`, whose ranking is the explicit three-record list. -/
theorem C4_amended_ranking_witness :
    List.Sorted (fun a b : TeamStat => b.WinRate ≤ a.WinRate)
      ([⟨"A", 1, 1, 1, 1000⟩, ⟨"B", 4, 2, 4, 500⟩, ⟨"C", 3, 1, 3, 333⟩] : List TeamStat) ∧
    ([⟨"A", 1, 1, 1, 1000⟩, ⟨"B", 4, 2, 4, 500⟩, ⟨"C", 3, 1, 3, 333⟩] : List TeamStat).length =
      min 10 (teams leaderboardTable).length :=
  C4_amended_ranking leaderboardTable
    [⟨"A", 1, 1, 1, 1000⟩, ⟨"B", 4, 2, 4, 500⟩, ⟨"C", 3, 1, 3, 333⟩] rfl

/-- C5: `goal_range` maps a `total_goals` value `v` to "0-1" iff
`0 < v ≤ 1`, to "2" iff `1 < v ≤ 2`, to "3" iff `2 < v ≤ 3`, to "4" iff
`3 < v ≤ 4` and to "5+" iff `4 < v ≤ 10` (right-closed, left-open bins);
the value 0 falls outside every bin and stays NaN (`none`), and adding
the column preserves every row. -/
theorem C5_goal_range_binning :
    (∀ v : Nat,
      ((goal_range v = some "0-1") ↔ (0 < v ∧ v ≤ 1)) ∧
      ((goal_range v = some "2") ↔ (1 < v ∧ v ≤ 2)) ∧
      ((goal_range v = some "3") ↔ (2 < v ∧ v ≤ 3)) ∧
      ((goal_range v = some "4") ↔ (3 < v ∧ v ≤ 4)) ∧
      ((goal_range v = some "5+") ↔ (4 < v ∧ v ≤ 10))) ∧
    goal_range 0 = none ∧
    (∀ df : List MatchRow, (withGoalRange df).length = df.length) := by
  refine ⟨fun v => ?_, rfl, fun df => by simp [withGoalRange]⟩
  rcases Nat.lt_or_ge v 11 with hv | hv
  · interval_cases v <;> exact ⟨by decide, by decide, by decide, by decide, by decide⟩
  · have h0 : goal_range v = none := by
      rw [goal_range_eq]
      split_ifs <;> first | rfl | omega
    rw [h0]
    refine ⟨?_, ?_, ?_, ?_, ?_⟩ <;> simp <;> omega

/-- C6: for every table, including the empty one, `goal_dist` has exactly
one entry per declared label, in declaration order, and labels with no
matching rows appear with frequency 0 instead of being dropped. -/
theorem C6_goal_dist_all_labels :
    (∀ df : List MatchRow,
      (goal_dist df).map Prod.fst = goal_labels ∧ (goal_dist df).length = 5) ∧
    goal_dist [] = [("0-1", 0), ("2", 0), ("3", 0), ("4", 0), ("5+", 0)] := by
  exact ⟨fun df => ⟨rfl, rfl⟩, rfl⟩

/-- C7 counterexample: in a table whose home team is literally named
"draw", a row with winner "draw" (a draw marker by the claimed
case-insensitive rule) is counted as a home win (`homeWins = 1`,
`draws = 0`), because the code only compares `winner` against the team
columns and has no draw-marker test; the universal claim is false. -/
theorem C7_counterexample :
    specDrawWinner drawNamedRow.winner = true ∧
    home_wins [drawNamedRow] = 1 ∧ draws [drawNamedRow] = 0 := by decide

/-- C7 amended: in every table where no draw-marked winner (null or
"draw" case-insensitively) coincides with the row's `Home` or `Away`
value — true of real data, where no team is named "draw" — such rows are
never counted as home or away wins, and on the spec's three-row example
the result is `homeWins = 1, awayWins = 0, draws = 2`. -/
theorem C7_amended_draw_rule (df : List MatchRow)
    (h : ∀ r ∈ df, specDrawWinner r.winner = true →
      winnerMatches r.winner r.Home = false ∧ winnerMatches r.winner r.Away = false) :
    home_wins df =
      (df.filter (fun r => winnerMatches r.winner r.Home && !(specDrawWinner r.winner))).length ∧
    away_wins df =
      (df.filter (fun r => winnerMatches r.winner r.Away && !(specDrawWinner r.winner))).length ∧
    (home_wins exTable3 = 1 ∧ away_wins exTable3 = 0 ∧ draws exTable3 = 2) := by
  refine ⟨?_, ?_, by decide⟩
  · unfold home_wins
    congr 1
    apply List.filter_congr
    intro r hr
    cases hd : specDrawWinner r.winner
    · simp [hd]
    · simp [hd, (h r hr hd).1]
  · unfold away_wins
    congr 1
    apply List.filter_congr
    intro r hr
    cases hd : specDrawWinner r.winner
    · simp [hd]
    · simp [hd, (h r hr hd).2]

/-- C7 witness: the amended draw rule evaluated on the concrete
three-row example table. -/
theorem C7_amended_draw_rule_witness :
    home_wins exTable3 =
      (exTable3.filter (fun r => winnerMatches r.winner r.Home && !(specDrawWinner r.winner))).length ∧
    away_wins exTable3 =
      (exTable3.filter (fun r => winnerMatches r.winner r.Away && !(specDrawWinner r.winner))).length ∧
    (home_wins exTable3 = 1 ∧ away_wins exTable3 = 0 ∧ draws exTable3 = 2) :=
  C7_amended_draw_rule exTable3 (by decide)

/-- C8: for every table whose `Day` values are canonical weekday codes,
the day-of-week grouped-mean output contains exactly the days present in
the source, in canonical Mon..Sun order, with absent days omitted rather
than zero-filled. -/
theorem C8_grouped_mean_day_canonical (df : List MatchRow)
    (h : ∀ r ∈ df, r.Day ∈ day_order) :
    (day_stats df).map DayStat.Day =
      day_order.filter (fun d => decide (d ∈ df.map MatchRow.Day)) := by
  have hkeysmem : ∀ x, x ∈ groupKeys df ↔ x ∈ df.map MatchRow.Day := by
    intro x
    rw [groupKeys, List.mem_insertionSort, List.mem_dedup]
  have hknd : (groupKeys df).Nodup := by
    rw [groupKeys]
    exact ((List.perm_insertionSort strLe _).nodup_iff).mpr (List.nodup_dedup _)
  have hsub : ∀ x ∈ groupKeys df, x ∈ day_order := by
    intro x hx
    obtain ⟨r, hr, hrq⟩ := List.mem_map.mp ((hkeysmem x).mp hx)
    exact hrq ▸ h r hr
  have he : (day_stats_unsorted df).map DayStat.Day = groupKeys df :=
    map_proj_of_section _ DayStat.Day (fun s => rfl) (groupKeys df)
  have hperm : List.Perm ((day_stats df).map DayStat.Day) (groupKeys df) := by
    have hp1 : List.Perm (day_stats df) (day_stats_unsorted df) :=
      List.perm_insertionSort _ _
    exact he ▸ hp1.map DayStat.Day
  have hsorted : ((day_stats df).map DayStat.Day).Pairwise
      (fun a b => day_order.indexOf a ≤ day_order.indexOf b) := by
    haveI : IsTotal DayStat (fun a b => dayPos a.Day ≤ dayPos b.Day) :=
      ⟨fun a b => Nat.le_total _ _⟩
    haveI : IsTrans DayStat (fun a b => dayPos a.Day ≤ dayPos b.Day) :=
      ⟨fun a b c => Nat.le_trans⟩
    have hs : List.Sorted (fun a b : DayStat => dayPos a.Day ≤ dayPos b.Day)
        (day_stats df) := List.sorted_insertionSort _ _
    rw [List.pairwise_map]
    exact hs
  have hmain := sorted_canonical_eq day_order (groupKeys df)
      ((day_stats df).map DayStat.Day) (by decide) hknd hsub hperm hsorted
  rw [hmain]
  apply List.filter_congr
  intro d hd
  exact decide_eq_decide.mpr (hkeysmem d)

/-- C8 witness: a table restricted to Wed, Fri, Mon yields exactly the
groups Mon, Wed, Fri in canonical order. -/
theorem C8_grouped_mean_day_canonical_witness :
    (day_stats mwfTable).map DayStat.Day =
      day_order.filter (fun d => decide (d ∈ mwfTable.map MatchRow.Day)) :=
  C8_grouped_mean_day_canonical mwfTable (by decide)

/-- C9: every team enumerated by `teams` occurs as `Home` or `Away` in at
least one row, so `total_matches` is positive and the win-rate
computation always takes the guarded division branch — the
division-by-zero fallback `else 0` is unreachable. -/
theorem C9_win_rate_guard (df : List MatchRow) (team : String) (h : team ∈ teams df) :
    0 < total_matches df team ∧
    win_rate df team = rateTenths (wins df team) (total_matches df team) := by
  have h1 : team ∈ List.insertionSort strLe
      ((df.map MatchRow.Home ++ df.map MatchRow.Away).dedup) := h
  have hmem : team ∈ df.map MatchRow.Home ++ df.map MatchRow.Away :=
    List.mem_dedup.mp ((List.mem_insertionSort strLe).mp h1)
  have hpos : 0 < total_matches df team := by
    rcases List.mem_append.mp hmem with hs | hs
    · obtain ⟨r, hr, hrq⟩ := List.mem_map.mp hs
      have hf0 : r ∈ df.filter (fun r2 => r2.Home == team) :=
        List.mem_filter.mpr ⟨hr, by simp [hrq]⟩
      have hf := List.length_pos_of_mem hf0
      unfold total_matches
      omega
    · obtain ⟨r, hr, hrq⟩ := List.mem_map.mp hs
      have hf0 : r ∈ df.filter (fun r2 => r2.Away == team) :=
        List.mem_filter.mpr ⟨hr, by simp [hrq]⟩
      have hf := List.length_pos_of_mem hf0
      unfold total_matches
      omega
  exact ⟨hpos, by unfold win_rate; rw [if_pos hpos]⟩

/-- C9 witness: the guard property evaluated for team "A" of
`leaderboardTable`. -/
theorem C9_win_rate_guard_witness :
    0 < total_matches leaderboardTable "A" ∧
    win_rate leaderboardTable "A" =
      rateTenths (wins leaderboardTable "A") (total_matches leaderboardTable "A") :=
  C9_win_rate_guard leaderboardTable "A" (by decide)

/-- C10: the per-team statistics sequence has exactly one entry per
distinct value occurring in the `Home` or `Away` column (teams with zero
wins or a single appearance included), enumerated in ascending
alphabetical order. -/
theorem C10_team_enumeration (df : List MatchRow) :
    (team_stats df).map TeamStat.Team = teams df ∧
    (teams df).Nodup ∧
    List.Sorted strLe (teams df) ∧
    (∀ x, x ∈ teams df ↔ (x ∈ df.map MatchRow.Home ∨ x ∈ df.map MatchRow.Away)) := by
  refine ⟨?_, ?_, ?_, fun x => ?_⟩
  · exact map_proj_of_section _ TeamStat.Team (fun s => rfl) (teams df)
  · rw [teams]
    exact ((List.perm_insertionSort strLe _).nodup_iff).mpr (List.nodup_dedup _)
  · haveI ht1 : IsTotal String strLe := ⟨fun a b => le_total a.data b.data⟩
    haveI ht2 : IsTrans String strLe := ⟨fun a b c => le_trans⟩
    rw [teams]
    exact List.sorted_insertionSort _ _
  · rw [teams, List.mem_insertionSort, List.mem_dedup, List.mem_append]
